import Mathlib

/-!
Verification of the editor-side LSP client bootstrap (`src/client/xmlClient.ts`
of `vscode-xml`), as a shallow embedding: each protocol / host-event handler of
the file is translated into a pure Lean function from its inputs (the message,
the relevant host state) to the effects it produces, and the specification's
claims about those handlers are proved or refuted over these functions.
-/

set_option autoImplicit false

namespace XmlClient

/-- Shallow embedding of the JavaScript values flowing through the handlers:
booleans, numbers, strings, `undefined`, and the one object literal the
telemetry handler constructs (`{ preferBinary: <bool> }`). -/
inductive JVal where
  | bool (b : Bool)
  | num (n : Nat)
  | str (s : String)
  | undef
  | settingsObj (preferBinary : Bool)
deriving DecidableEq, Repr

/-- The slice of a host text editor the configuration-pull handler reads:
its document URI (already in normalized `Uri.toString()` form) and the two
per-editor formatting options `options.insertSpaces` / `options.tabSize`. -/
structure TextEditor where
  uri : String
  insertSpaces : JVal
  tabSize : JVal
deriving DecidableEq, Repr

/-- One requested `(scopeUri, section)` item of a `workspace/configuration`
pull request (`ConfigurationParams.items`). URIs are modelled in their
normalized form, so the source's
`Uri.parse(item.scopeUri).toString()` comparison is string equality. -/
structure ConfigItem where
  scopeUri : String
  sectionName : String
deriving DecidableEq, Repr

/-- Embedding of the `ConfigurationRequest` handler registered in
`startLanguageClient` (xmlClient.ts lines 89-104): iterate over the requested
items in order; when an active editor exists and its document URI equals the
item's scope URI, push the editor's local option for the two special sections
(and, as in the source, push nothing for any other section); otherwise push
the global configuration value for the section scoped to that URI
(`getConfiguration scopeUri sectionName`, `JVal.undef` when absent). -/
def handleConfigurationRequest (activeEditor : Option TextEditor)
    (getConfiguration : String → String → JVal) :
    List ConfigItem → List JVal
  | [] => []
  | item :: rest =>
    let tail := handleConfigurationRequest activeEditor getConfiguration rest
    match activeEditor with
    | some ed =>
      if ed.uri = item.scopeUri then
        if item.sectionName = "xml.format.insertSpaces" then
          ed.insertSpaces :: tail
        else if item.sectionName = "xml.format.tabSize" then
          ed.tabSize :: tail
        else
          tail
      else
        getConfiguration item.scopeUri item.sectionName :: tail
    | none => getConfiguration item.scopeUri item.sectionName :: tail

/-- The per-item entry the handler actually produces: `some v` when the loop
body pushes `v` for this item, `none` when it pushes nothing (active editor's
URI matches but the section is neither special formatting section). -/
def configEntry (activeEditor : Option TextEditor)
    (getConfiguration : String → String → JVal) (item : ConfigItem) :
    Option JVal :=
  match activeEditor with
  | some ed =>
    if ed.uri = item.scopeUri then
      if item.sectionName = "xml.format.insertSpaces" then
        some ed.insertSpaces
      else if item.sectionName = "xml.format.tabSize" then
        some ed.tabSize
      else
        none
    else
      some (getConfiguration item.scopeUri item.sectionName)
  | none => some (getConfiguration item.scopeUri item.sectionName)

/-- The `MessageType` enumeration of the protocol library, by its wire values
(`Error = 1`, `Warning = 2`, `Info = 3`, `Log = 4`). The severity of a
received message is an arbitrary number, so unknown values are representable. -/
def MessageType.Error : Nat := 1

/-- `MessageType.Warning` wire value. -/
def MessageType.Warning : Nat := 2

/-- `MessageType.Info` wire value. -/
def MessageType.Info : Nat := 3

/-- `MessageType.Log` wire value. -/
def MessageType.Log : Nat := 4

/-- A `Command` of an actionable message: `{title, command, arguments?}`;
`arguments` is optional, as in the protocol library's `Command` shape. -/
structure Command where
  title : String
  command : String
  arguments : Option (List JVal)
deriving DecidableEq, Repr

/-- The `ActionableMessage` shape (xmlClient.ts lines 25-30): severity, text,
and an *optional* list of commands (the `data?` field is never read by the
handler and is omitted). -/
structure ActionableMessage where
  severity : Nat
  message : String
  commands : Option (List Command)
deriving DecidableEq, Repr

/-- The three host prompt styles (`window.showInformationMessage`,
`window.showWarningMessage`, `window.showErrorMessage`). -/
inductive PromptStyle where
  | information
  | warning
  | error
deriving DecidableEq, Repr

/-- The `switch (severity)` of `setupActionableNotificationListener`
(xmlClient.ts lines 172-183): `Info`, `Warning` and `Error` pick a host
prompt function; every other value leaves `show` null. -/
def severityToShow (severity : Nat) : Option PromptStyle :=
  if severity = MessageType.Info then some PromptStyle.information
  else if severity = MessageType.Warning then some PromptStyle.warning
  else if severity = MessageType.Error then some PromptStyle.error
  else none

/-- The prompt a recognized actionable message produces: a style, the message
text, and one button title per supplied command, in order. -/
structure Prompt where
  style : PromptStyle
  message : String
  titles : List String
deriving DecidableEq, Repr

/-- Embedding of the actionable-notification handler (xmlClient.ts lines
171-197) up to showing the prompt. `Except.error ()` is the JavaScript
`TypeError` thrown by `notification.commands.map(...)` when `commands` is
absent; `Except.ok none` is the silent early return for unrecognized
severities; `Except.ok (some p)` means prompt `p` is shown exactly once. -/
def handleActionableMessage (n : ActionableMessage) :
    Except Unit (Option Prompt) :=
  match severityToShow n.severity with
  | none => Except.ok none
  | some style =>
    match n.commands with
    | none => Except.error ()
    | some cmds =>
      Except.ok (some ⟨style, n.message, cmds.map Command.title⟩)

/-- Embedding of the prompt-resolution callback (xmlClient.ts lines 188-196):
given the message's commands and the host's resolution of the prompt
(`some title` when the user picked a button, `none` on dismissal), return the
list of command invocations performed, each as (command, arguments). The
source loop invokes the first command whose title strictly equals the
selection and then breaks, so the result has at most one element; a command
without arguments is invoked with the empty argument list. -/
def resolveSelection : List Command → Option String → List (String × List JVal)
  | [], _ => []
  | action :: rest, selection =>
    if some action.title = selection then
      [(action.command, action.arguments.getD [])]
    else
      resolveSelection rest selection

/-- Modelled from the spec: the server-initialized telemetry event name,
a constant of the `../telemetry` module, which is not part of the given
sources; the spec calls it "the server-initialized event". -/
def SERVER_INITIALIZED_EVT : String := "server.initialized"

/-- Modelled from the spec: the startup telemetry event name, a constant of
the `../telemetry` module, which is not part of the given sources; the spec
calls it "a distinct startup event name" (distinct from the
server-initialized name). -/
def STARTUP_EVT : String := "startup"

/-- Modelled from the spec: the settings property key, a constant of the
`../telemetry` module, which is not part of the given sources; the spec calls
it "a settings property". -/
def SETTINGS_EVT : String := "settings"

/-- A telemetry event's property bag, as an ordered key-value list (the
JavaScript object the event carries). -/
abbrev Props : Type := List (String × JVal)

/-- A telemetry event received from the server: a name and a property bag. -/
structure TelemetryEvent where
  name : String
  properties : Props
deriving DecidableEq, Repr

/-- JavaScript property assignment `props[k] = v`: replaces the value of an
existing key in place, otherwise appends the new key at the end. -/
def setProp (props : Props) (k : String) (v : JVal) : Props :=
  if (props.map Prod.fst).contains k then
    props.map fun p => if p.1 = k then (k, v) else p
  else
    props ++ [(k, v)]

/-- JavaScript property read `props[k]`: the value of the first entry with
key `k`, if any. -/
def lookupProp (props : Props) (k : String) : Option JVal :=
  (props.find? fun p => p.1 = k).map Prod.snd

/-- Embedding of the `onTelemetry` handler (xmlClient.ts lines 46-55):
`preferBinary` is the locally-read `xml.server.preferBinary` configuration
value. The result is the (event name, properties) pair handed to
`Telemetry.sendTelemetry`: the server-initialized event has the settings
property set on its property bag and is forwarded under the startup name;
every other event is forwarded as received. -/
def onTelemetry (preferBinary : Bool) (e : TelemetryEvent) : String × Props :=
  if e.name = SERVER_INITIALIZED_EVT then
    (STARTUP_EVT, setProp e.properties SETTINGS_EVT (JVal.settingsObj preferBinary))
  else
    (e.name, e.properties)

/-- The host-visible effects the remaining handlers produce: a
`DidChangeConfiguration` push carrying a settings payload, the local
`onConfigurationChange()` callback, a host configuration update
(`workspace.getConfiguration(sectionName).update(key, value)`), and
`commands.executeCommand(setContext, key, value)`. -/
inductive Effect where
  | pushSettings (settings : JVal)
  | configurationChangeCallback
  | updateConfiguration (sectionName : String) (key : String) (value : Bool)
  | setContext (key : String) (value : Bool)
deriving DecidableEq, Repr

/-- Whether an effect is a settings push to the server. -/
def Effect.isPushSettings : Effect → Bool
  | Effect.pushSettings _ => true
  | _ => false

/-- Whether an effect is the local configuration-changed callback. -/
def Effect.isConfigurationChangeCallback : Effect → Bool
  | Effect.configurationChangeCallback => true
  | _ => false

/-- A file association of the XML settings (`XMLFileAssociation` of
`../api/xmlExtensionApi`, not part of the given sources): a system id paired
with a file-matching pattern. -/
structure XMLFileAssociation where
  systemId : String
  pattern : String
deriving DecidableEq, Repr

/-- Embedding of the `onDidChangeActiveTextEditor` listener (xmlClient.ts
lines 108-113). `containsVariableReferenceToCurrentFile` (imported from
`../settings/variableSubstitution`, not part of the given sources) is passed
as a function argument; `fileAssociations` is the current
`xml.fileAssociations` configuration value; `freshSettings` is the payload
`getXMLSettings(...)` computes at event time. If the predicate holds of the
associations, one settings push and one local configuration-changed callback
are produced, in that order; otherwise none. -/
def onActiveEditorChange
    (containsVariableReferenceToCurrentFile : List XMLFileAssociation → Bool)
    (fileAssociations : List XMLFileAssociation)
    (freshSettings : JVal) : List Effect :=
  if containsVariableReferenceToCurrentFile fileAssociations then
    [Effect.pushSettings freshSettings, Effect.configurationChangeCallback]
  else
    []

/-- The `State` enumeration of the protocol library's client session. -/
inductive State where
  | Stopped
  | Starting
  | Running
deriving DecidableEq, Repr

/-- A state-change event (`onDidChangeState` payload). -/
structure StateChangeEvent where
  oldState : State
  newState : State
deriving DecidableEq, Repr

/-- Embedding of the `onDidChangeState` listener (xmlClient.ts lines 41-44):
it always executes `setContext XMLLSReady (e.newState == State.Running)`. -/
def onStateChange (e : StateChangeEvent) : Effect :=
  Effect.setContext "XMLLSReady" (e.newState == State.Running)

/-- Embedding of the workspace-trust-grant callback (xmlClient.ts lines
117-120): push freshly computed settings, then set
`xml.downloadExternalResources.enabled` to `true`. `priorValue` is the
configuration flag's value before the event; the callback never reads it. -/
def onWorkspaceTrustGrant (freshSettings : JVal) (priorValue : Bool) :
    List Effect :=
  [Effect.pushSettings freshSettings,
   Effect.updateConfiguration "xml" "downloadExternalResources.enabled" true]

/-- Embedding of the guarded subscription (xmlClient.ts lines 115-121): the
host's `workspace.onDidGrantWorkspaceTrust` may be `undefined`; when it is
present the trust-grant callback is subscribed, otherwise nothing is
subscribed (and no error occurs: the result is the empty subscription
list). -/
def workspaceTrustSubscriptions (onDidGrantWorkspaceTrustAvailable : Bool) :
    List (JVal → Bool → List Effect) :=
  if onDidGrantWorkspaceTrustAvailable then [onWorkspaceTrustGrant] else []

/-- The extended client capabilities declared in the initialization
options. -/
structure ExtendedClientCapabilities where
  codeLensKindValueSet : List String
  actionableNotificationSupport : Bool
  openSettingsCommandSupport : Bool
  bindingWizardSupport : Bool
deriving DecidableEq, Repr

/-- The `revealOutputChannelOn` policy values of the protocol library. -/
inductive RevealOutputChannelOn where
  | Info
  | Warn
  | Error
  | Never
deriving DecidableEq, Repr

/-- The slice of `LanguageClientOptions` built by `getLanguageClientOptions`
(xmlClient.ts lines 126-168) that is representable without the host: the
reveal policy, the initialization settings payload and extended
capabilities, and `synchronize.configurationSection`. -/
structure LanguageClientOptions where
  revealOutputChannelOn : RevealOutputChannelOn
  initializationSettings : JVal
  extendedClientCapabilities : ExtendedClientCapabilities
  configurationSection : List String
deriving DecidableEq, Repr

/-- Embedding of `getLanguageClientOptions` (xmlClient.ts lines 126-168);
`settings` is the payload `getXMLSettings(...)` computes at build time. -/
def getLanguageClientOptions (settings : JVal) : LanguageClientOptions where
  revealOutputChannelOn := RevealOutputChannelOn.Never
  initializationSettings := settings
  extendedClientCapabilities :=
    { codeLensKindValueSet := ["references", "association", "open.uri"]
      actionableNotificationSupport := true
      openSettingsCommandSupport := true
      bindingWizardSupport := true }
  configurationSection :=
    ["xml", "[xml]", "files.trimFinalNewlines", "files.trimTrailingWhitespace",
     "files.insertFinalNewline", "editor.linkedEditing"]

theorem handleConfigurationRequest_eq_filterMap (a : Option TextEditor)
    (g : String → String → JVal) (items : List ConfigItem) :
    handleConfigurationRequest a g items = items.filterMap (configEntry a g) := by
  induction items with
  | nil => cases a <;> rfl
  | cons item rest ih =>
    cases a with
    | none =>
      simp [handleConfigurationRequest, configEntry, List.filterMap_cons, ih]
    | some ed =>
      by_cases h1 : ed.uri = item.scopeUri
      · by_cases h2 : item.sectionName = "xml.format.insertSpaces"
        · simp [handleConfigurationRequest, configEntry, List.filterMap_cons, h1, h2, ih]
        · by_cases h3 : item.sectionName = "xml.format.tabSize"
          · simp [handleConfigurationRequest, configEntry, List.filterMap_cons, h1, h2, h3, ih]
          · simp [handleConfigurationRequest, configEntry, List.filterMap_cons, h1, h2, h3, ih]
      · simp [handleConfigurationRequest, configEntry, List.filterMap_cons, h1, ih]

/-- C1 counterexample: with an active editor on `file:///a.xml`, the request
item `(scopeUri = file:///a.xml, sectionName = "foo")` — scope equal to the
active document's URI, sectionName neither special formatting sectionName —
produces an empty response: no entry at all is returned for the item, while
the claim demands one entry per item (here, the global configuration value
`JVal.undef`). -/
theorem configurationPull_drops_item :
    handleConfigurationRequest
        (some ⟨"file:///a.xml", JVal.bool true, JVal.num 4⟩)
        (fun _ _ => JVal.undef)
        [⟨"file:///a.xml", "foo"⟩] = [] ∧
    (handleConfigurationRequest
        (some ⟨"file:///a.xml", JVal.bool true, JVal.num 4⟩)
        (fun _ _ => JVal.undef)
        [⟨"file:///a.xml", "foo"⟩]).length ≠
      ([(⟨"file:///a.xml", "foo"⟩ : ConfigItem)]).length := by
  constructor
  · rfl
  · decide

/-- C1 (amended): the configuration-pull handler answers the requested items
in request order, producing per item: the active editor's `insertSpaces`
(resp. `tabSize`) local option when the item's scope URI equals the active
editor's document URI and the sectionName is `xml.format.insertSpaces` (resp.
`xml.format.tabSize`); the global configuration value scoped to the item's
URI when the scope does not match the active editor (or there is none); and
*no entry at all* when the scope matches the active editor but the
sectionName is neither special sectionName (so the response may be shorter
than the request). -/
theorem configurationPull_per_item (a : Option TextEditor)
    (g : String → String → JVal) (items : List ConfigItem) :
    handleConfigurationRequest a g items = items.filterMap (configEntry a g) ∧
    (∀ ed item, a = some ed → ed.uri = item.scopeUri →
      (item.sectionName = "xml.format.insertSpaces" →
        configEntry a g item = some ed.insertSpaces) ∧
      (item.sectionName = "xml.format.tabSize" →
        configEntry a g item = some ed.tabSize) ∧
      (item.sectionName ≠ "xml.format.insertSpaces" →
        item.sectionName ≠ "xml.format.tabSize" →
        configEntry a g item = none)) ∧
    (∀ item, (∀ ed, a = some ed → ed.uri ≠ item.scopeUri) →
      configEntry a g item = some (g item.scopeUri item.sectionName)) := by
  refine ⟨handleConfigurationRequest_eq_filterMap a g items, ?_, ?_⟩
  · rintro ed item rfl h1
    refine ⟨?_, ?_, ?_⟩
    · intro h2; simp [configEntry, h1, h2]
    · intro h2
      by_cases h3 : item.sectionName = "xml.format.insertSpaces"
      · rw [h2] at h3; exact absurd h3 (by decide)
      · simp [configEntry, h1, h2, h3]
    · intro h2 h3; simp [configEntry, h1, h2, h3]
  · intro item hne
    cases a with
    | none => simp [configEntry]
    | some ed => simp [configEntry, hne ed rfl]

/-- C1 witness: instantiating the amended per-item theorem on the spec's own
example — two items, the first scoped to the active document and asking for
`xml.format.insertSpaces`, the second scoped to another document and asking
for `xml.format.tabSize` — yields exactly the editor's `insertSpaces`
followed by the global `tabSize` value. -/
theorem configurationPull_per_item_witness :
    handleConfigurationRequest
        (some ⟨"file:///a.xml", JVal.bool true, JVal.num 4⟩)
        (fun _ _ => JVal.num 2)
        [⟨"file:///a.xml", "xml.format.insertSpaces"⟩,
         ⟨"file:///b.xml", "xml.format.tabSize"⟩] =
      [JVal.bool true, JVal.num 2] := by
  have h := configurationPull_per_item
    (some ⟨"file:///a.xml", JVal.bool true, JVal.num 4⟩)
    (fun _ _ => JVal.num 2)
    [⟨"file:///a.xml", "xml.format.insertSpaces"⟩,
     ⟨"file:///b.xml", "xml.format.tabSize"⟩]
  rw [h.1]
  rfl

/-- C2 counterexample: an actionable message of recognized severity `Info`
whose optional `commands` field is absent makes the handler raise (the
JavaScript `TypeError` from `notification.commands.map`), so no prompt is
shown — the claim as stated promises exactly one prompt for every
recognized-severity message. -/
theorem actionable_info_without_commands_throws :
    handleActionableMessage ⟨MessageType.Info, "m", none⟩ =
      Except.error () := rfl

/-- C2 (amended): for a received actionable message whose `commands` list is
present, a recognized severity (`Info` ↦ information, `Warning` ↦ warning,
`Error` ↦ error) shows exactly one prompt in the matching host style, and
any other severity value shows no prompt and raises no error; a
recognized-severity message with `commands` absent instead fails (see the
counterexample). -/
theorem actionable_severity_dispatch (n : ActionableMessage) :
    (severityToShow MessageType.Info = some PromptStyle.information ∧
     severityToShow MessageType.Warning = some PromptStyle.warning ∧
     severityToShow MessageType.Error = some PromptStyle.error) ∧
    (n.severity ≠ MessageType.Info → n.severity ≠ MessageType.Warning →
      n.severity ≠ MessageType.Error → severityToShow n.severity = none) ∧
    (∀ cmds style, n.commands = some cmds →
      severityToShow n.severity = some style →
      handleActionableMessage n =
        Except.ok (some ⟨style, n.message, cmds.map Command.title⟩)) ∧
    (severityToShow n.severity = none →
      handleActionableMessage n = Except.ok none) := by
  refine ⟨⟨rfl, rfl, rfl⟩, ?_, ?_, ?_⟩
  · intro h3 h2 h1
    simp [severityToShow, h1, h2, h3]
  · intro cmds style hc hs
    simp [handleActionableMessage, hs, hc]
  · intro hs
    simp [handleActionableMessage, hs]

/-- C2 witness: a warning-severity message with one command produces exactly
one prompt, in the warning style, with that command's title as its single
button. -/
theorem actionable_severity_dispatch_witness :
    handleActionableMessage
        ⟨MessageType.Warning, "careful", some [⟨"Fix", "x.fix", none⟩]⟩ =
      Except.ok (some ⟨PromptStyle.warning, "careful", ["Fix"]⟩) :=
  (actionable_severity_dispatch
      ⟨MessageType.Warning, "careful", some [⟨"Fix", "x.fix", none⟩]⟩).2.2.1
    [⟨"Fix", "x.fix", none⟩] PromptStyle.warning rfl rfl

/-- C3: resolving an actionable prompt invokes at most one command; on
dismissal (no selection) no command is invoked; on a selected title, exactly
the first command of the list whose title equals the selection is invoked —
even when several commands share that title — with its arguments, or with the
empty argument list when it supplies none; a selection matching no command
(impossible through the host, since the buttons are the commands' titles)
invokes nothing. -/
theorem resolveSelection_first_match (cmds : List Command)
    (sel : Option String) :
    (resolveSelection cmds sel).length ≤ 1 ∧
    (sel = none → resolveSelection cmds sel = []) ∧
    (∀ t, sel = some t →
      resolveSelection cmds sel =
        (cmds.find? fun a => a.title == t).toList.map
          fun a => (a.command, a.arguments.getD [])) := by
  induction cmds with
  | nil =>
    refine ⟨by simp [resolveSelection], fun _ => rfl, fun t ht => by
      simp [resolveSelection, List.find?]⟩
  | cons action rest ih =>
    refine ⟨?_, ?_, ?_⟩
    · by_cases h : some action.title = sel
      · simp [resolveSelection, h]
      · simp only [resolveSelection, if_neg h]
        exact ih.1
    · rintro rfl
      simp only [resolveSelection, reduceCtorEq, if_false]
      exact ih.2.1 rfl
    · rintro t rfl
      by_cases h : action.title = t
      · simp [resolveSelection, List.find?, h]
      · have h2 : ¬ some action.title = some t := by
          intro hc; exact h (Option.some.inj hc)
        simp only [resolveSelection, if_neg h2]
        rw [ih.2.2 t rfl]
        have hb : (action.title == t) = false := beq_eq_false_iff_ne.mpr h
        simp [List.find?, hb]

/-- C3 witness: on the spec's example commands
`[{Fix, x.fix, [1]}, {Ignore, x.ignore}]`, selecting "Fix" invokes exactly
`x.fix` with argument list `[1]`; selecting "Ignore" invokes exactly
`x.ignore` with the empty argument list; dismissing invokes nothing; and on
duplicate "Fix" titles only the first command runs. -/
theorem resolveSelection_first_match_witness :
    resolveSelection [⟨"Fix", "x.fix", some [JVal.num 1]⟩,
        ⟨"Ignore", "x.ignore", none⟩] (some "Fix") =
      [("x.fix", [JVal.num 1])] ∧
    resolveSelection [⟨"Fix", "x.fix", some [JVal.num 1]⟩,
        ⟨"Ignore", "x.ignore", none⟩] (some "Ignore") =
      [("x.ignore", [])] ∧
    resolveSelection [⟨"Fix", "x.fix", some [JVal.num 1]⟩,
        ⟨"Ignore", "x.ignore", none⟩] none = [] ∧
    resolveSelection [⟨"Fix", "x.fix", some [JVal.num 1]⟩,
        ⟨"Fix", "x.fix2", none⟩] (some "Fix") =
      [("x.fix", [JVal.num 1])] := by
  refine ⟨?_, ?_, ?_, ?_⟩
  · rw [(resolveSelection_first_match
      [⟨"Fix", "x.fix", some [JVal.num 1]⟩, ⟨"Ignore", "x.ignore", none⟩]
      (some "Fix")).2.2 "Fix" rfl]
    rfl
  · rw [(resolveSelection_first_match
      [⟨"Fix", "x.fix", some [JVal.num 1]⟩, ⟨"Ignore", "x.ignore", none⟩]
      (some "Ignore")).2.2 "Ignore" rfl]
    rfl
  · exact (resolveSelection_first_match
      [⟨"Fix", "x.fix", some [JVal.num 1]⟩, ⟨"Ignore", "x.ignore", none⟩]
      none).2.1 rfl
  · rw [(resolveSelection_first_match
      [⟨"Fix", "x.fix", some [JVal.num 1]⟩, ⟨"Fix", "x.fix2", none⟩]
      (some "Fix")).2.2 "Fix" rfl]
    rfl

/-- C4: for a message of recognized severity, the handler reads the optional
`commands` list unconditionally to build the button titles, so it fails
exactly when `commands` is absent — instead of showing a button-less
prompt — and succeeds with one prompt whenever `commands` is present (a
possibly empty list). -/
theorem actionable_commands_precondition (n : ActionableMessage)
    (style : PromptStyle) (h : severityToShow n.severity = some style) :
    (handleActionableMessage n = Except.error () ↔ n.commands = none) ∧
    (∀ cmds, n.commands = some cmds →
      handleActionableMessage n =
        Except.ok (some ⟨style, n.message, cmds.map Command.title⟩)) := by
  constructor
  · constructor
    · intro he
      cases hc : n.commands with
      | none => rfl
      | some cmds => simp [handleActionableMessage, h, hc] at he
    · intro hc
      simp [handleActionableMessage, h, hc]
  · intro cmds hc
    simp [handleActionableMessage, h, hc]

/-- C4 witness: an error-severity message without a `commands` list makes the
handler fail, and the same message with an empty `commands` list succeeds
with a button-less prompt. -/
theorem actionable_commands_precondition_witness :
    handleActionableMessage ⟨MessageType.Error, "boom", none⟩ =
      Except.error () ∧
    handleActionableMessage ⟨MessageType.Error, "boom", some []⟩ =
      Except.ok (some ⟨PromptStyle.error, "boom", []⟩) :=
  ⟨(actionable_commands_precondition ⟨MessageType.Error, "boom", none⟩
      PromptStyle.error rfl).1.mpr rfl,
   (actionable_commands_precondition ⟨MessageType.Error, "boom", some []⟩
      PromptStyle.error rfl).2 [] rfl⟩

theorem lookupProp_cons (a : String) (w : JVal) (ps : Props) (q : String) :
    lookupProp ((a, w) :: ps) q =
      if a = q then some w else lookupProp ps q := by
  by_cases h : a = q
  · simp [lookupProp, List.find?, h]
  · simp [lookupProp, List.find?, h]

theorem lookupProp_map_update_self (props : Props) (k : String) (v : JVal)
    (h : (props.map Prod.fst).contains k = true) :
    lookupProp (props.map fun p => if p.1 = k then (k, v) else p) k =
      some v := by
  induction props with
  | nil => simp at h
  | cons p ps ih =>
    obtain ⟨a, w⟩ := p
    by_cases hp : a = k
    · simp only [List.map_cons, if_pos hp, lookupProp_cons, if_pos rfl]
      simp
    · have h2 : (ps.map Prod.fst).contains k = true := by
        simp only [List.map_cons, List.contains_cons] at h
        rcases Bool.or_eq_true_iff.mp h with h | h
        · exact absurd (beq_iff_eq.mp h).symm hp
        · exact h
      have hak : ¬ (a = k) := hp
      simp only [List.map_cons]
      rw [show ((if (a, w).1 = k then (k, v) else (a, w)) = (a, w)) from
        if_neg hak]
      rw [lookupProp_cons, if_neg hak]
      exact ih h2

theorem lookupProp_map_update_ne (props : Props) (k : String) (v : JVal)
    (q : String) (h : q ≠ k) :
    lookupProp (props.map fun p => if p.1 = k then (k, v) else p) q =
      lookupProp props q := by
  induction props with
  | nil => rfl
  | cons p ps ih =>
    obtain ⟨a, w⟩ := p
    by_cases hp : a = k
    · have hq : ¬ (k = q) := fun hc => h hc.symm
      simp only [List.map_cons]
      rw [show ((if (a, w).1 = k then (k, v) else (a, w)) = (k, v)) from
        if_pos hp]
      rw [lookupProp_cons, if_neg hq, lookupProp_cons,
        if_neg (fun hc => hq (hp ▸ hc))]
      exact ih
    · simp only [List.map_cons]
      rw [show ((if (a, w).1 = k then (k, v) else (a, w)) = (a, w)) from
        if_neg hp]
      rw [lookupProp_cons, lookupProp_cons]
      by_cases hq : a = q
      · rw [if_pos hq, if_pos hq]
      · rw [if_neg hq, if_neg hq]
        exact ih

theorem lookupProp_append_single_self (props : Props) (k : String) (v : JVal)
    (h : (props.map Prod.fst).contains k = false) :
    lookupProp (props ++ [(k, v)]) k = some v := by
  induction props with
  | nil => simp [lookupProp, List.find?]
  | cons p ps ih =>
    obtain ⟨a, w⟩ := p
    simp only [List.map_cons, List.contains_cons, Bool.or_eq_false_iff] at h
    have hp : ¬ (a = k) := fun hc => by
      rw [hc] at h
      exact absurd h.1 (by simp)
    rw [List.cons_append, lookupProp_cons, if_neg hp]
    exact ih h.2

theorem lookupProp_append_single_ne (props : Props) (k : String) (v : JVal)
    (q : String) (h : q ≠ k) :
    lookupProp (props ++ [(k, v)]) q = lookupProp props q := by
  induction props with
  | nil =>
    have hk : ¬ (k = q) := fun hc => h hc.symm
    simp [lookupProp, List.find?, hk]
  | cons p ps ih =>
    obtain ⟨a, w⟩ := p
    rw [List.cons_append, lookupProp_cons, lookupProp_cons]
    by_cases hq : a = q
    · rw [if_pos hq, if_pos hq]
    · rw [if_neg hq, if_neg hq]
      exact ih

theorem lookupProp_setProp_self (props : Props) (k : String) (v : JVal) :
    lookupProp (setProp props k v) k = some v := by
  unfold setProp
  by_cases h : (props.map Prod.fst).contains k = true
  · rw [if_pos h]
    exact lookupProp_map_update_self props k v h
  · rw [if_neg h]
    exact lookupProp_append_single_self props k v (Bool.eq_false_iff.mpr h)

theorem lookupProp_setProp_ne (props : Props) (k : String) (v : JVal)
    (q : String) (h : q ≠ k) :
    lookupProp (setProp props k v) q = lookupProp props q := by
  unfold setProp
  by_cases hc : (props.map Prod.fst).contains k = true
  · rw [if_pos hc]
    exact lookupProp_map_update_ne props k v q h
  · rw [if_neg hc]
    exact lookupProp_append_single_ne props k v q h

/-- C5: a telemetry event named with the server-initialized name is forwarded
under the startup name — a name distinct from the received one — with the
settings property of its property bag set to the object carrying the
locally-read `preferBinary` boolean; every event with any other name is
forwarded with its name and its property bag unchanged. -/
theorem onTelemetry_forwarding (b : Bool) (e : TelemetryEvent) :
    (e.name = SERVER_INITIALIZED_EVT →
      (onTelemetry b e).1 = STARTUP_EVT ∧
      STARTUP_EVT ≠ SERVER_INITIALIZED_EVT ∧
      lookupProp (onTelemetry b e).2 SETTINGS_EVT =
        some (JVal.settingsObj b)) ∧
    (e.name ≠ SERVER_INITIALIZED_EVT →
      onTelemetry b e = (e.name, e.properties)) := by
  constructor
  · intro h
    refine ⟨by simp [onTelemetry, h], by decide, ?_⟩
    simp only [onTelemetry, if_pos h]
    exact lookupProp_setProp_self e.properties SETTINGS_EVT
      (JVal.settingsObj b)
  · intro h
    simp [onTelemetry, h]

/-- C5 witness: a server-initialized event with one unrelated property is
forwarded under the startup name with the settings property present, and an
event named `other` passes through unchanged. -/
theorem onTelemetry_forwarding_witness :
    (onTelemetry true ⟨SERVER_INITIALIZED_EVT, [("k", JVal.num 1)]⟩).1 =
      STARTUP_EVT ∧
    lookupProp
        (onTelemetry true ⟨SERVER_INITIALIZED_EVT, [("k", JVal.num 1)]⟩).2
        SETTINGS_EVT = some (JVal.settingsObj true) ∧
    onTelemetry true ⟨"other", [("k", JVal.num 1)]⟩ =
      ("other", [("k", JVal.num 1)]) := by
  have h1 := (onTelemetry_forwarding true
    ⟨SERVER_INITIALIZED_EVT, [("k", JVal.num 1)]⟩).1 rfl
  have h2 := (onTelemetry_forwarding true ⟨"other", [("k", JVal.num 1)]⟩).2
    (by decide)
  exact ⟨h1.1, h1.2.2, h2⟩

/-- C10 counterexample: a server-initialized event whose property bag already
contains the settings key has that pre-existing key overwritten in place —
its value changes and no key is added — while the claim states exactly one
key is added and every pre-existing key is left unchanged. -/
theorem onTelemetry_overwrites_settings_key :
    (onTelemetry true
        ⟨SERVER_INITIALIZED_EVT, [(SETTINGS_EVT, JVal.num 7)]⟩).2 =
      [(SETTINGS_EVT, JVal.settingsObj true)] ∧
    lookupProp
        (onTelemetry true
          ⟨SERVER_INITIALIZED_EVT, [(SETTINGS_EVT, JVal.num 7)]⟩).2
        SETTINGS_EVT ≠
      lookupProp [(SETTINGS_EVT, JVal.num 7)] SETTINGS_EVT ∧
    (onTelemetry true
        ⟨SERVER_INITIALIZED_EVT, [(SETTINGS_EVT, JVal.num 7)]⟩).2.length =
      ([(SETTINGS_EVT, JVal.num 7)] : Props).length := by
  refine ⟨by decide, by decide, by decide⟩

/-- C10 (amended): for a server-initialized event the handler sets the
settings key of the received property bag in place — adding it when absent,
overwriting it when already present — leaves every other key unchanged, and
forwards that same bag; for every other event name the property bag is
forwarded with no key added, removed, or changed. -/
theorem onTelemetry_frame (b : Bool) (e : TelemetryEvent) :
    (e.name = SERVER_INITIALIZED_EVT →
      lookupProp (onTelemetry b e).2 SETTINGS_EVT =
        some (JVal.settingsObj b) ∧
      (∀ k, k ≠ SETTINGS_EVT →
        lookupProp (onTelemetry b e).2 k = lookupProp e.properties k)) ∧
    (e.name ≠ SERVER_INITIALIZED_EVT →
      (onTelemetry b e).2 = e.properties) := by
  constructor
  · intro h
    simp only [onTelemetry, if_pos h]
    exact ⟨lookupProp_setProp_self e.properties SETTINGS_EVT
        (JVal.settingsObj b),
      fun k hk => lookupProp_setProp_ne e.properties SETTINGS_EVT
        (JVal.settingsObj b) k hk⟩
  · intro h
    simp [onTelemetry, h]

/-- C10 witness: on a server-initialized event carrying one unrelated
property `k`, the forwarded bag holds the settings object under the settings
key while the value under `k` is untouched; an event named `other` keeps its
bag verbatim. -/
theorem onTelemetry_frame_witness :
    lookupProp
        (onTelemetry false ⟨SERVER_INITIALIZED_EVT, [("k", JVal.num 1)]⟩).2
        SETTINGS_EVT = some (JVal.settingsObj false) ∧
    lookupProp
        (onTelemetry false ⟨SERVER_INITIALIZED_EVT, [("k", JVal.num 1)]⟩).2
        "k" = lookupProp [("k", JVal.num 1)] "k" ∧
    (onTelemetry false ⟨"other", [("k", JVal.num 1)]⟩).2 =
      [("k", JVal.num 1)] := by
  have h1 := (onTelemetry_frame false
    ⟨SERVER_INITIALIZED_EVT, [("k", JVal.num 1)]⟩).1 rfl
  have h2 := (onTelemetry_frame false ⟨"other", [("k", JVal.num 1)]⟩).2
    (by decide)
  exact ⟨h1.1, h1.2 "k" (by decide), h2⟩

/-- C6: per active-editor-change event, when the file-association settings
contain a variable referring to the current file (the predicate imported
from the variable-substitution module holds of them), the listener produces
exactly one settings push — carrying the freshly computed settings — and
exactly one local configuration-changed callback, in that order; otherwise
it produces no effect at all. -/
theorem onActiveEditorChange_effects
    (p : List XMLFileAssociation → Bool)
    (assocs : List XMLFileAssociation) (s : JVal) :
    (p assocs = true →
      onActiveEditorChange p assocs s =
        [Effect.pushSettings s, Effect.configurationChangeCallback] ∧
      (onActiveEditorChange p assocs s).countP Effect.isPushSettings = 1 ∧
      (onActiveEditorChange p assocs s).countP
        Effect.isConfigurationChangeCallback = 1) ∧
    (p assocs = false → onActiveEditorChange p assocs s = []) := by
  constructor
  · intro h
    refine ⟨by simp [onActiveEditorChange, h], ?_, ?_⟩
    · simp [onActiveEditorChange, h, List.countP_cons,
        Effect.isPushSettings, Effect.isConfigurationChangeCallback]
    · simp [onActiveEditorChange, h, List.countP_cons,
        Effect.isPushSettings, Effect.isConfigurationChangeCallback]
  · intro h
    simp [onActiveEditorChange, h]

/-- C6 witness: with the predicate "the association list is empty" the
listener fires one push and one callback on the empty list and nothing on a
one-element list. -/
theorem onActiveEditorChange_effects_witness :
    onActiveEditorChange (fun l => l.isEmpty) [] JVal.undef =
      [Effect.pushSettings JVal.undef,
       Effect.configurationChangeCallback] ∧
    (onActiveEditorChange (fun l => l.isEmpty) [] JVal.undef).countP
      Effect.isPushSettings = 1 ∧
    onActiveEditorChange (fun l => l.isEmpty) [⟨"a", "b"⟩] JVal.undef =
      [] := by
  have h1 := (onActiveEditorChange_effects (fun l => l.isEmpty) []
    JVal.undef).1 rfl
  have h2 := (onActiveEditorChange_effects (fun l => l.isEmpty) [⟨"a", "b"⟩]
    JVal.undef).2 rfl
  exact ⟨h1.1, h1.2.1, h2⟩

/-- C7: the state-change listener always executes
`setContext XMLLSReady <flag>`, and the flag it sets is `true` exactly when
the newly reported session state is `Running`, `false` exactly otherwise. -/
theorem serverReady_iff_running (e : StateChangeEvent) :
    (onStateChange e = Effect.setContext "XMLLSReady" true ↔
      e.newState = State.Running) ∧
    (onStateChange e = Effect.setContext "XMLLSReady" false ↔
      e.newState ≠ State.Running) := by
  obtain ⟨o, n⟩ := e
  cases n <;> simp [onStateChange]

/-- C7 witness: a transition into `Running` sets the flag to `true`; a
transition into `Stopped` sets it to `false`. -/
theorem serverReady_iff_running_witness :
    onStateChange ⟨State.Starting, State.Running⟩ =
      Effect.setContext "XMLLSReady" true ∧
    onStateChange ⟨State.Running, State.Stopped⟩ =
      Effect.setContext "XMLLSReady" false :=
  ⟨(serverReady_iff_running ⟨State.Starting, State.Running⟩).1.mpr rfl,
   (serverReady_iff_running ⟨State.Running, State.Stopped⟩).2.mpr
     (by decide)⟩

/-- C8: when the host exposes the workspace-trust-granted event, exactly the
trust-grant callback is subscribed, and on every grant it pushes the freshly
computed settings and sets `xml` / `downloadExternalResources.enabled` to
`true` irrespective of the flag's prior value (the callback's result does
not depend on `priorValue`); when the host does not expose the event, no
subscription is made (and no error occurs — the subscription list is
empty). -/
theorem workspaceTrust_subscription (avail : Bool) :
    (avail = true →
      workspaceTrustSubscriptions avail = [onWorkspaceTrustGrant] ∧
      ∀ s prior, onWorkspaceTrustGrant s prior =
        [Effect.pushSettings s,
         Effect.updateConfiguration "xml"
           "downloadExternalResources.enabled" true]) ∧
    (avail = false → workspaceTrustSubscriptions avail = []) := by
  constructor
  · intro h
    exact ⟨by simp [workspaceTrustSubscriptions, h],
      fun s prior => rfl⟩
  · intro h
    simp [workspaceTrustSubscriptions, h]

/-- C8 witness: with the event available the subscription list is the single
trust-grant callback, which on a grant with prior flag value `false` still
sets the flag to `true`; with the event unavailable the subscription list is
empty. -/
theorem workspaceTrust_subscription_witness :
    workspaceTrustSubscriptions true = [onWorkspaceTrustGrant] ∧
    onWorkspaceTrustGrant JVal.undef false =
      [Effect.pushSettings JVal.undef,
       Effect.updateConfiguration "xml"
         "downloadExternalResources.enabled" true] ∧
    workspaceTrustSubscriptions false = [] := by
  have h1 := (workspaceTrust_subscription true).1 rfl
  have h2 := (workspaceTrust_subscription false).2 rfl
  exact ⟨h1.1, h1.2 JVal.undef false, h2⟩

/-- C9: the synchronization filter of the built client options is exactly the
six-element prefix list `xml`, `[xml]`, `files.trimFinalNewlines`,
`files.trimTrailingWhitespace`, `files.insertFinalNewline`,
`editor.linkedEditing`, in that form and order, whatever settings payload
the options are built from. (That only sections under these prefixes trigger
change pushes is the protocol library's documented semantics of this
field.) -/
theorem configurationSection_filter (s : JVal) :
    (getLanguageClientOptions s).configurationSection =
      ["xml", "[xml]", "files.trimFinalNewlines",
       "files.trimTrailingWhitespace", "files.insertFinalNewline",
       "editor.linkedEditing"] := rfl

end XmlClient
